import Mathlib

/-!
Verification of `src/print.py` (mielpeeters/breaker): a one-shot script that
reads a CSV-like log, accumulates per-kind cumulative counters, and plots two
series.  The core (lines 5-26 of the source) is embedded shallowly below: the
file content is a `List Char`, Python's `str.strip`, `str.split(sep)` and
`int(...)` are modelled directly, fatal runtime errors (ValueError from tuple
unpacking or `int`) are `none`, and the accumulation loop is a fold over the
lines.  The plotting calls (lines 28-38) consume the four arrays but do not
change them, so the verified pipeline ends at the final accumulation state.
-/

namespace Breaker

/-- Python `str.strip()` whitespace set (the ASCII part: space, tab, newline,
carriage return, vertical tab, form feed). -/
def isPySpace (c : Char) : Bool :=
  c = ' ' || c = '\t' || c = '\n' || c = '\r' || c = '\x0b' || c = '\x0c'

/-- Python `str.strip()`: remove leading and trailing whitespace
(source line 15, `data.strip()`). -/
def pyStrip (l : List Char) : List Char :=
  ((l.dropWhile isPySpace).reverse.dropWhile isPySpace).reverse

/-- Python `str.split('\n')` (source line 15): split on every newline,
keeping empty pieces; the empty string yields `[""]`. -/
def splitNl : List Char → List (List Char)
  | [] => [[]]
  | '\n' :: rest => [] :: splitNl rest
  | c :: rest =>
    match splitNl rest with
    | p :: ps => (c :: p) :: ps
    | [] => [[c]]

/-- Python `str.split(', ')` (source line 16): split on every non-overlapping
occurrence of the two-character separator `", "`, scanning left to right,
keeping empty pieces; a string without the separator yields a one-element
list. -/
def splitCommaSpace : List Char → List (List Char)
  | [] => [[]]
  | ',' :: ' ' :: rest => [] :: splitCommaSpace rest
  | c :: rest =>
    match splitCommaSpace rest with
    | p :: ps => (c :: p) :: ps
    | [] => [[c]]

/-- Decimal value of a digit string (used only on all-digit strings). -/
def digitsToNat (l : List Char) : Nat :=
  l.foldl (fun acc c => acc * 10 + (c.toNat - 48)) 0

/-- Nonempty all-digit string to `Nat`, else `none`. -/
def pyNatOfDigits : List Char → Option Nat
  | [] => none
  | l => if l.all Char.isDigit then some (digitsToNat l) else none

/-- Python `int(s)` (source line 17): strip surrounding whitespace, allow one
optional sign, then require a nonempty digit string; anything else raises
ValueError, modelled as `none`.  (Digit-group underscores, a Python corner
not exercised by this repository, are not modelled and simply fail.) -/
def pyInt (s : List Char) : Option Int :=
  match pyStrip s with
  | '+' :: rest => (pyNatOfDigits rest).map Int.ofNat
  | '-' :: rest => (pyNatOfDigits rest).map (fun n => -(Int.ofNat n))
  | l => (pyNatOfDigits l).map Int.ofNat

/-- The accumulation state: the six mutable variables of source lines 5-10. -/
structure St where
  pipeline_count : Nat
  audio_engine_count : Nat
  x_pipeline : List Int
  y_pipeline : List Nat
  x_audio_engine : List Int
  y_audio_engine : List Nat
deriving Repr, DecidableEq

/-- Initial state (source lines 5-10): both counters 0, all four arrays
empty. -/
def initSt : St := ⟨0, 0, [], [], [], []⟩

/-- The tracked kind `'pipeline'` (source line 19). -/
def pipelineKind : List Char := "pipeline".data

/-- The tracked kind `'audio_engine'` (source line 23). -/
def audioEngineKind : List Char := "audio_engine".data

/-- Source lines 16-17: `item, timestamp = line.split(', ')` followed by
`timestamp = int(timestamp)`.  The two-way unpacking succeeds only when the
split yields exactly two pieces; a failed unpacking or a failed `int` is a
fatal ValueError, modelled as `none`. -/
def parseLine (l : List Char) : Option (List Char × Int) :=
  match splitCommaSpace l with
  | [item, ts] =>
    match pyInt ts with
    | some t => some (item, t)
    | none => none
  | _ => none

/-- Source lines 19-26: the if/elif on `item`.  A `'pipeline'` record bumps
`pipeline_count` and appends to `x_pipeline`/`y_pipeline`; an
`'audio_engine'` record does the same for its variables; any other kind
leaves the state untouched (no else branch exists). -/
def applyRecord (st : St) (item : List Char) (t : Int) : St :=
  if item = pipelineKind then
    { st with pipeline_count := st.pipeline_count + 1,
              x_pipeline := st.x_pipeline ++ [t],
              y_pipeline := st.y_pipeline ++ [st.pipeline_count + 1] }
  else if item = audioEngineKind then
    { st with audio_engine_count := st.audio_engine_count + 1,
              x_audio_engine := st.x_audio_engine ++ [t],
              y_audio_engine := st.y_audio_engine ++ [st.audio_engine_count + 1] }
  else st

/-- One iteration of the loop body (source lines 16-26) on one line. -/
def processLine (st : St) (l : List Char) : Option St :=
  match parseLine l with
  | some (item, t) => some (applyRecord st item t)
  | none => none

/-- The loop of source lines 15-26, threading the state through the lines;
`none` as soon as one line is malformed (the Python run aborts there). -/
def processLines (st : St) : List (List Char) → Option St
  | [] => some st
  | l :: ls =>
    match processLine st l with
    | some st' => processLines st' ls
    | none => none

/-- The lines the loop iterates over: `data.strip().split('\n')`
(source line 15). -/
def linesOf (data : List Char) : List (List Char) :=
  splitNl (pyStrip data)

/-- The whole pipeline from file content to final accumulation state
(source lines 5-26). -/
def run (data : List Char) : Option St :=
  processLines initSt (linesOf data)

/-- Kind field of a line, when the line parses. -/
def kindOf (l : List Char) : Option (List Char) :=
  (parseLine l).map Prod.fst

/-- Number of lines whose kind field equals `k`. -/
def countKind (k : List Char) (lines : List (List Char)) : Nat :=
  (lines.filter (fun l => kindOf l == some k)).length

/-- Timestamp extracted from a line when its kind is `k`, else `none`. -/
def tsOf (k : List Char) (l : List Char) : Option Int :=
  match parseLine l with
  | some (item, t) => if item = k then some t else none
  | none => none

/-- The timestamps of the lines of kind `k`, in input order. -/
def tsOfKind (k : List Char) (lines : List (List Char)) : List Int :=
  lines.filterMap (tsOf k)

/-- The five-line concrete scenario of the spec. -/
def sampleData : List Char :=
  "pipeline, 10\naudio_engine, 12\npipeline, 15\nunknown_kind, 20\npipeline, 30".data

lemma pipeline_ne_audio : pipelineKind ≠ audioEngineKind := by decide

lemma tsOf_eq_some {l item : List Char} {t : Int} (k : List Char)
    (hp : parseLine l = some (item, t)) (hk : item = k) :
    tsOf k l = some t := by
  simp [tsOf, hp, hk]

lemma tsOf_eq_none {l item : List Char} {t : Int} (k : List Char)
    (hp : parseLine l = some (item, t)) (hk : item ≠ k) :
    tsOf k l = none := by
  simp [tsOf, hp, hk]

/-- Master invariant of the accumulation loop (source lines 15-26): starting
from any state, a list of parseable lines is consumed without error, each
counter grows by the number of matching lines, each x array is extended by
the matching timestamps in input order, and each y array is extended by the
consecutive counter values. -/
lemma processLines_spec (lines : List (List Char)) :
    ∀ st : St, (∀ l ∈ lines, (parseLine l).isSome = true) →
    ∃ st', processLines st lines = some st' ∧
      st'.pipeline_count =
        st.pipeline_count + (tsOfKind pipelineKind lines).length ∧
      st'.x_pipeline = st.x_pipeline ++ tsOfKind pipelineKind lines ∧
      st'.y_pipeline = st.y_pipeline ++
        List.range' (st.pipeline_count + 1) (tsOfKind pipelineKind lines).length ∧
      st'.audio_engine_count =
        st.audio_engine_count + (tsOfKind audioEngineKind lines).length ∧
      st'.x_audio_engine = st.x_audio_engine ++ tsOfKind audioEngineKind lines ∧
      st'.y_audio_engine = st.y_audio_engine ++
        List.range' (st.audio_engine_count + 1) (tsOfKind audioEngineKind lines).length := by
  induction lines with
  | nil =>
    intro st _
    exact ⟨st, rfl, by simp [tsOfKind]⟩
  | cons l ls ih =>
    intro st h
    have hl : (parseLine l).isSome = true := h l (List.mem_cons_self _ _)
    obtain ⟨⟨item, t⟩, hp⟩ := Option.isSome_iff_exists.mp hl
    have hrest : ∀ l' ∈ ls, (parseLine l').isSome = true :=
      fun l' hm => h l' (List.mem_cons_of_mem _ hm)
    obtain ⟨st', hrun, h1, h2, h3, h4, h5, h6⟩ := ih (applyRecord st item t) hrest
    have hstep : processLines st (l :: ls) = some st' := by
      simp [processLines, processLine, hp, hrun]
    by_cases hpk : item = pipelineKind
    · have hts : tsOfKind pipelineKind (l :: ls) = t :: tsOfKind pipelineKind ls := by
        simp [tsOfKind, List.filterMap_cons, tsOf_eq_some pipelineKind hp hpk]
      have hne : item ≠ audioEngineKind := fun hh =>
        pipeline_ne_audio (hpk ▸ hh)
      have hts2 : tsOfKind audioEngineKind (l :: ls) = tsOfKind audioEngineKind ls := by
        simp [tsOfKind, List.filterMap_cons, tsOf_eq_none audioEngineKind hp hne]
      have ha : applyRecord st item t =
          { st with pipeline_count := st.pipeline_count + 1,
                    x_pipeline := st.x_pipeline ++ [t],
                    y_pipeline := st.y_pipeline ++ [st.pipeline_count + 1] } := by
        simp [applyRecord, hpk]
      rw [ha] at h1 h2 h3 h4 h5 h6
      simp only [] at h1 h2 h3 h4 h5 h6
      refine ⟨st', hstep, ?_, ?_, ?_, ?_, ?_, ?_⟩
      · rw [h1, hts]; simp; omega
      · rw [h2, hts]; simp
      · rw [h3, hts]; simp [List.range'_succ]
      · rw [h4, hts2]
      · rw [h5, hts2]
      · rw [h6, hts2]
    · by_cases hak : item = audioEngineKind
      · have hts : tsOfKind audioEngineKind (l :: ls) =
            t :: tsOfKind audioEngineKind ls := by
          simp [tsOfKind, List.filterMap_cons, tsOf_eq_some audioEngineKind hp hak]
        have hts2 : tsOfKind pipelineKind (l :: ls) = tsOfKind pipelineKind ls := by
          simp [tsOfKind, List.filterMap_cons, tsOf_eq_none pipelineKind hp hpk]
        have ha : applyRecord st item t =
            { st with audio_engine_count := st.audio_engine_count + 1,
                      x_audio_engine := st.x_audio_engine ++ [t],
                      y_audio_engine := st.y_audio_engine ++ [st.audio_engine_count + 1] } := by
          have hne2 : ¬audioEngineKind = pipelineKind := fun hh =>
            pipeline_ne_audio hh.symm
          simp [applyRecord, hpk, hak, hne2]
        rw [ha] at h1 h2 h3 h4 h5 h6
        simp only [] at h1 h2 h3 h4 h5 h6
        refine ⟨st', hstep, ?_, ?_, ?_, ?_, ?_, ?_⟩
        · rw [h1, hts2]
        · rw [h2, hts2]
        · rw [h3, hts2]
        · rw [h4, hts]; simp; omega
        · rw [h5, hts]; simp
        · rw [h6, hts]; simp [List.range'_succ]
      · have hts : tsOfKind pipelineKind (l :: ls) = tsOfKind pipelineKind ls := by
          simp [tsOfKind, List.filterMap_cons, tsOf_eq_none pipelineKind hp hpk]
        have hts2 : tsOfKind audioEngineKind (l :: ls) = tsOfKind audioEngineKind ls := by
          simp [tsOfKind, List.filterMap_cons, tsOf_eq_none audioEngineKind hp hak]
        have ha : applyRecord st item t = st := by
          simp [applyRecord, hpk, hak]
        rw [ha] at h1 h2 h3 h4 h5 h6
        exact ⟨st', hstep, by rw [h1, hts], by rw [h2, hts], by rw [h3, hts],
          by rw [h4, hts2], by rw [h5, hts2], by rw [h6, hts2]⟩

/-- C1: on the concrete five-line input, the accumulate step succeeds (no
error) and produces the pipeline series x = [10, 15, 30], y = [1, 2, 3] and
the audio_engine series x = [12], y = [1]; the `unknown_kind` line
contributes no entry. -/
theorem sample_input_series :
    run sampleData =
      some { pipeline_count := 3, audio_engine_count := 1,
             x_pipeline := [10, 15, 30], y_pipeline := [1, 2, 3],
             x_audio_engine := [12], y_audio_engine := [1] } := by
  decide

lemma length_tsOfKind_eq_countKind (k : List Char) (lines : List (List Char))
    (h : ∀ l ∈ lines, (parseLine l).isSome = true) :
    (tsOfKind k lines).length = countKind k lines := by
  induction lines with
  | nil => rfl
  | cons l ls ih =>
    have hl := h l (List.mem_cons_self _ _)
    obtain ⟨⟨item, t⟩, hp⟩ := Option.isSome_iff_exists.mp hl
    have hrest : ∀ l' ∈ ls, (parseLine l').isSome = true :=
      fun l' hm => h l' (List.mem_cons_of_mem _ hm)
    have hih := ih hrest
    simp only [tsOfKind, countKind, kindOf] at hih
    by_cases hk : item = k
    · simp [tsOfKind, List.filterMap_cons, tsOf_eq_some k hp hk,
        countKind, List.filter_cons, kindOf, hp, hk, hih]
    · simp [tsOfKind, List.filterMap_cons, tsOf_eq_none k hp hk,
        countKind, List.filter_cons, kindOf, hp, hk, hih]

/-- C2: for every well-formed input (every line splits into exactly two
fields on `", "` with an integer timestamp), the run succeeds and the length
of each tracked kind's series (both the x and y arrays) equals the number of
input lines whose kind field equals that kind. -/
theorem series_length_eq_count (data : List Char)
    (h : ∀ l ∈ linesOf data, (parseLine l).isSome = true) :
    ∃ st, run data = some st ∧
      st.x_pipeline.length = countKind pipelineKind (linesOf data) ∧
      st.y_pipeline.length = countKind pipelineKind (linesOf data) ∧
      st.x_audio_engine.length = countKind audioEngineKind (linesOf data) ∧
      st.y_audio_engine.length = countKind audioEngineKind (linesOf data) := by
  obtain ⟨st, hrun, h1, h2, h3, h4, h5, h6⟩ :=
    processLines_spec (linesOf data) initSt h
  refine ⟨st, hrun, ?_, ?_, ?_, ?_⟩ <;>
    simp [h2, h3, h5, h6, initSt, ← length_tsOfKind_eq_countKind _ _ h]

theorem series_length_eq_count_witness :
    (∀ l ∈ linesOf sampleData, (parseLine l).isSome = true) ∧
    (∃ st, run sampleData = some st ∧
      st.x_pipeline.length = countKind pipelineKind (linesOf sampleData) ∧
      st.y_pipeline.length = countKind pipelineKind (linesOf sampleData) ∧
      st.x_audio_engine.length = countKind audioEngineKind (linesOf sampleData) ∧
      st.y_audio_engine.length = countKind audioEngineKind (linesOf sampleData)) :=
  ⟨by decide, series_length_eq_count sampleData (by decide)⟩

/-- C3: for every well-formed input, the y array of each tracked kind's
series is exactly `[1, 2, ..., n]` in input order, i.e. `List.range' 1 n`
where `n` is that kind's final counter: it starts at 1 and increases by
exactly 1 per matching record. -/
theorem y_series_is_count_sequence (data : List Char)
    (h : ∀ l ∈ linesOf data, (parseLine l).isSome = true) :
    ∃ st, run data = some st ∧
      st.y_pipeline = List.range' 1 st.pipeline_count ∧
      st.y_audio_engine = List.range' 1 st.audio_engine_count := by
  obtain ⟨st, hrun, h1, h2, h3, h4, h5, h6⟩ :=
    processLines_spec (linesOf data) initSt h
  exact ⟨st, hrun, by simp [h3, h1, initSt], by simp [h6, h4, initSt]⟩

theorem y_series_is_count_sequence_witness :
    (∀ l ∈ linesOf sampleData, (parseLine l).isSome = true) ∧
    (∃ st, run sampleData = some st ∧
      st.y_pipeline = List.range' 1 st.pipeline_count ∧
      st.y_audio_engine = List.range' 1 st.audio_engine_count) :=
  ⟨by decide, y_series_is_count_sequence sampleData (by decide)⟩

/-- C4: for every well-formed input, the x array of each tracked kind's
series equals the timestamps of that kind's matching lines extracted by an
order-preserving filter over the input lines (`List.filterMap`), i.e. in the
same relative order as they appear in the input; no sorting by timestamp is
performed. -/
theorem x_series_order_preserved (data : List Char)
    (h : ∀ l ∈ linesOf data, (parseLine l).isSome = true) :
    ∃ st, run data = some st ∧
      st.x_pipeline = tsOfKind pipelineKind (linesOf data) ∧
      st.x_audio_engine = tsOfKind audioEngineKind (linesOf data) := by
  obtain ⟨st, hrun, _, h2, _, _, h5, _⟩ :=
    processLines_spec (linesOf data) initSt h
  exact ⟨st, hrun, by simp [h2, initSt], by simp [h5, initSt]⟩

theorem x_series_order_preserved_witness :
    (∀ l ∈ linesOf sampleData, (parseLine l).isSome = true) ∧
    (∃ st, run sampleData = some st ∧
      st.x_pipeline = tsOfKind pipelineKind (linesOf sampleData) ∧
      st.x_audio_engine = tsOfKind audioEngineKind (linesOf sampleData)) :=
  ⟨by decide, x_series_order_preserved sampleData (by decide)⟩

/-- C5: a well-formed line (exactly one `", "` split into two fields,
integer timestamp) whose kind is neither `'pipeline'` nor `'audio_engine'`
is processed without error and leaves the whole state — every counter and
every series — unchanged. -/
theorem unknown_kind_ignored (st : St) (l : List Char)
    (h : (parseLine l).isSome = true)
    (hp : kindOf l ≠ some pipelineKind)
    (ha : kindOf l ≠ some audioEngineKind) :
    processLine st l = some st := by
  obtain ⟨⟨item, t⟩, hpl⟩ := Option.isSome_iff_exists.mp h
  have h1 : item ≠ pipelineKind := fun hh => hp (by simp [kindOf, hpl, hh])
  have h2 : item ≠ audioEngineKind := fun hh => ha (by simp [kindOf, hpl, hh])
  simp [processLine, hpl, applyRecord, h1, h2]

theorem unknown_kind_ignored_witness :
    ((parseLine "unknown_kind, 20".data).isSome = true ∧
     kindOf "unknown_kind, 20".data ≠ some pipelineKind ∧
     kindOf "unknown_kind, 20".data ≠ some audioEngineKind) ∧
    processLine initSt "unknown_kind, 20".data = some initSt :=
  ⟨⟨by decide, by decide, by decide⟩,
   unknown_kind_ignored initSt "unknown_kind, 20".data
     (by decide) (by decide) (by decide)⟩

/-- A malformed line anywhere in the list makes the whole loop fail: the
loop has no skip-and-continue, the `none` (unhandled ValueError) propagates. -/
lemma processLines_eq_none (lines : List (List Char)) :
    ∀ st : St, ∀ l ∈ lines, parseLine l = none → processLines st lines = none := by
  induction lines with
  | nil =>
    intro st l hm
    exact absurd hm (List.not_mem_nil l)
  | cons a ls ih =>
    intro st l hm hbad
    rcases List.mem_cons.mp hm with h | h
    · subst h
      simp [processLines, processLine, hbad]
    · cases hpa : parseLine a with
      | none => simp [processLines, processLine, hpa]
      | some it =>
        obtain ⟨item, t⟩ := it
        simp only [processLines, processLine, hpa]
        exact ih _ l h hbad

/-- C6: an input containing a line that is missing the `", "` separator (its
split is the whole line as a single field) or whose timestamp field is not
parseable as an integer makes the run fail with a fatal unhandled error
(`none`), so no chart is ever produced; there is no skip-and-continue for
malformed lines. -/
theorem malformed_line_fatal (data l : List Char)
    (hm : l ∈ linesOf data)
    (hbad : splitCommaSpace l = [l] ∨
      ∃ item ts, splitCommaSpace l = [item, ts] ∧ pyInt ts = none) :
    run data = none := by
  have hpl : parseLine l = none := by
    rcases hbad with h | ⟨item, ts, h1, h2⟩
    · simp [parseLine, h]
    · simp [parseLine, h1, h2]
  exact processLines_eq_none _ initSt l hm hpl

theorem malformed_line_fatal_witness :
    ("oops".data ∈ linesOf "pipeline, 10\noops\npipeline, 20".data ∧
      splitCommaSpace "oops".data = ["oops".data]) ∧
    run "pipeline, 10\noops\npipeline, 20".data = none :=
  ⟨⟨by decide, by decide⟩,
   malformed_line_fatal "pipeline, 10\noops\npipeline, 20".data "oops".data
     (by decide) (Or.inl (by decide))⟩

/-- C7: the pipeline from file content to the four series arrays reads no
ambient state (source lines 12-26 use no randomness, clock, or environment),
so it is a pure deterministic function of the file content: two runs on the
same content produce identical results. -/
theorem run_deterministic (d₁ d₂ : List Char) (h : d₁ = d₂) :
    run d₁ = run d₂ := by rw [h]

theorem run_deterministic_witness :
    sampleData = sampleData ∧ run sampleData = run sampleData :=
  ⟨rfl, run_deterministic sampleData sampleData rfl⟩

lemma dropWhile_append_of_all {p : Char → Bool} {l r : List Char}
    (h : l.all p = true) :
    List.dropWhile p (l ++ r) = List.dropWhile p r := by
  induction l with
  | nil => rfl
  | cons a l ih =>
    simp only [List.all_cons, Bool.and_eq_true] at h
    simp [List.dropWhile_cons, h.1, ih h.2]

lemma dropWhile_all_eq_nil {p : Char → Bool} {l : List Char}
    (h : l.all p = true) : List.dropWhile p l = [] := by
  have hh := dropWhile_append_of_all (r := ([] : List Char)) h
  simpa using hh

lemma dropWhile_append_cons {p : Char → Bool} {l r : List Char} {c : Char}
    {rest : List Char} (h : List.dropWhile p l = c :: rest) :
    List.dropWhile p (l ++ r) = c :: (rest ++ r) := by
  induction l with
  | nil => simp [List.dropWhile] at h
  | cons a l ih =>
    by_cases hpa : p a
    · rw [List.dropWhile_cons_of_pos hpa] at h
      rw [List.cons_append, List.dropWhile_cons_of_pos hpa]
      exact ih h
    · rw [List.dropWhile_cons_of_neg hpa] at h
      rw [List.cons_append, List.dropWhile_cons_of_neg hpa]
      injection h with h1 h2
      subst h1; subst h2
      simp

/-- Surrounding whitespace is invisible to `pyStrip`: stripping a string
wrapped in whitespace on both ends gives the same result as stripping the
string alone. -/
lemma pyStrip_surround (ws₁ ws₂ d : List Char)
    (h₁ : ws₁.all isPySpace = true) (h₂ : ws₂.all isPySpace = true) :
    pyStrip (ws₁ ++ d ++ ws₂) = pyStrip d := by
  unfold pyStrip
  rw [List.append_assoc, dropWhile_append_of_all h₁]
  cases hd : List.dropWhile isPySpace d with
  | nil =>
    have hall : d.all isPySpace = true :=
      List.all_eq_true.mpr (List.dropWhile_eq_nil_iff.mp hd)
    rw [dropWhile_append_of_all hall, dropWhile_all_eq_nil h₂]
  | cons c rest =>
    rw [dropWhile_append_cons hd]
    have hws₂ : ws₂.reverse.all isPySpace = true := by simpa using h₂
    simp only [List.reverse_cons, List.reverse_append, List.append_assoc]
    rw [dropWhile_append_of_all hws₂]

/-- C8: surrounding whitespace (and only surrounding whitespace) is trimmed
from the whole file content before splitting into lines: wrapping the input
in leading and trailing whitespace — in particular a trailing newline at end
of file — produces no extra record and no error, and the resulting series
are identical to those of the unwrapped input. -/
theorem surrounding_whitespace_trimmed (ws₁ ws₂ data : List Char)
    (h₁ : ws₁.all isPySpace = true) (h₂ : ws₂.all isPySpace = true) :
    run (ws₁ ++ data ++ ws₂) = run data := by
  unfold run linesOf
  rw [pyStrip_surround ws₁ ws₂ data h₁ h₂]

theorem surrounding_whitespace_trimmed_witness :
    (List.all [] isPySpace = true ∧ ['\n'].all isPySpace = true) ∧
    run ([] ++ sampleData ++ ['\n']) = run sampleData :=
  ⟨⟨by decide, by decide⟩,
   surrounding_whitespace_trimmed [] ['\n'] sampleData (by decide) (by decide)⟩

/-- C9: an input that is empty or contains only whitespace fails fatally and
produces no series: after stripping, the content is empty, splitting on
newlines yields the single empty line, and that line has no `", "` separator,
so its two-way unpacking fails. -/
theorem empty_input_fails (data : List Char) (h : data.all isPySpace = true) :
    run data = none := by
  have hstrip : pyStrip data = [] := by
    unfold pyStrip
    rw [dropWhile_all_eq_nil h]
    rfl
  unfold run linesOf
  rw [hstrip]
  decide

theorem empty_input_fails_witness :
    " \n\t".data.all isPySpace = true ∧ run " \n\t".data = none :=
  ⟨by decide, empty_input_fails " \n\t".data (by decide)⟩

/-- C10: a line splitting into three or more fields on `", "` (i.e. with two
or more separator occurrences, such as a kind string itself containing
`", "`) makes the run fail fatally, exactly like a line with no separator:
the two-way unpacking accepts only a split of exactly two fields. -/
theorem multi_separator_fatal (data l : List Char)
    (hm : l ∈ linesOf data)
    (h3 : 3 ≤ (splitCommaSpace l).length) :
    run data = none := by
  have hpl : parseLine l = none := by
    cases hs : splitCommaSpace l with
    | nil => simp [parseLine, hs]
    | cons a t =>
      cases t with
      | nil => simp [parseLine, hs]
      | cons b t2 =>
        cases t2 with
        | nil =>
          rw [hs] at h3
          simp at h3
        | cons c t3 => simp [parseLine, hs]
  exact processLines_eq_none _ initSt l hm hpl

theorem multi_separator_fatal_witness :
    ("a, b, 7".data ∈ linesOf "a, b, 7".data ∧
      3 ≤ (splitCommaSpace "a, b, 7".data).length) ∧
    run "a, b, 7".data = none :=
  ⟨⟨by decide, by decide⟩,
   multi_separator_fatal "a, b, 7".data "a, b, 7".data (by decide) (by decide)⟩

end Breaker
